import Mathlib

/-!
Verification development for the idempotent remote index provisioner of the
rag-demo-cdk repository.  The repository embeds two near-duplicate Python
implementations of the provisioning routine as inline Lambda code:

* `src/lib/stacks/infrastructure-stack.ts` (`handler` / `create_opensearch_index`),
  with `max_retries = 6`, `base_delay = 60`, a 30-second linear-backoff step for
  403 ("TransientDenied") responses, a `base_delay // 2 = 30` base with
  15-second step for generic exceptions, an immediate re-raise of `ValueError`
  (non-auth creation errors), and a handler that reports FAILED for unknown
  request types;

* `src/lib/stacks/application-stack.ts` (`handler` / `create_opensearch_index`),
  with `max_retries = 5`, `base_delay = 90`, a 45-second step for 403 responses,
  a `base_delay // 2 = 45` base with 30-second step for generic exceptions, an
  extra `_cluster/health` HEAD probe before the index existence check, no
  `ValueError` pass-through (so non-auth creation errors are retried by the
  generic handler), and a handler that reports SUCCESS for unknown request
  types.

Both variants guard every loop iteration with a wall-clock budget check
(`time_remaining() < 120` aborts) and clamp every retry delay with
`max(floor, time_remaining() - 120)` when the un-clamped delay would not leave
a 120-second safety margin.

The embedding below models time in whole seconds, advancing only during
`time.sleep` calls (network calls are modelled as instantaneous); the remote
endpoint is an explicit state machine returning either an HTTP status code or
`none` for a network-level exception.  The Lambda's fixed budget is
`13 * 60 = 780` seconds; the deadline is kept as a parameter `D` of the model,
with `780` as the concrete instance used by the code.
-/

namespace RagDemo

/-- HTTP method of a modelled network call (`HEAD` existence/health probes and
`PUT` index creation). -/
inductive Meth
  | head
  | put
deriving DecidableEq

/-- Which URL a network call targets: the `_cluster/health` probe (only used by
the application-stack variant) or the index URL `{endpoint}/{index_name}`. -/
inductive Target
  | health
  | index
deriving DecidableEq

/-- One network call of the provisioning routine.  `status = none` models a
network-level exception raised by the HTTP client. -/
structure NetCall where
  attempt : Nat
  meth : Meth
  target : Target
  status : Option Nat
deriving DecidableEq

/-- Which retry handler produced a sleep: the 403 ("access denied") branch or
the generic `except Exception` branch. -/
inductive SleepKind
  | denied
  | generic
deriving DecidableEq

/-- One `time.sleep` performed by the routine.  `now` is the elapsed time when
the sleep starts, `requested` the linear-backoff delay computed before the
deadline clamp, `slept` the actual duration after clamping. -/
structure SleepEvent where
  attempt : Nat
  kind : SleepKind
  now : Nat
  requested : Nat
  slept : Nat
deriving DecidableEq

/-- Reason a run of the routine raised (in Python: the exception that escapes
`create_opensearch_index`). -/
inductive FailReason
  | deadlineAbort
  | accessDenied
  | permanentError
  | netException
  | retriesExhausted
deriving DecidableEq

/-- Terminal outcome of `create_opensearch_index`.  `fellThrough` models the
infrastructure-stack variant's `for` loop completing without `return`/`raise`
(the function then returns `None`, which the handler reports as SUCCESS); it is
unreachable but kept for fidelity. -/
inductive CreateOutcome
  | alreadyExists
  | created
  | fellThrough
  | raised (r : FailReason)
deriving DecidableEq

/-- Log record of one loop iteration: the network calls it made and the sleep
it performed, if any. -/
structure AttemptRec where
  idx : Nat
  calls : List NetCall
  sleep : Option SleepEvent
deriving DecidableEq

/-- The remote endpoint, modelled as a state machine: given its state, a method
and a target it yields a response (`none` = network exception) and a new
state. -/
abbrev Endpoint (σ : Type) : Type := σ → Meth → Target → Option Nat × σ

/-- Mutable state threaded through the retry loop. -/
structure St (σ : Type) where
  ep : σ
  elapsed : Nat
  log : List AttemptRec

/-- Result of one invocation of `create_opensearch_index`. -/
structure RunResult (σ : Type) where
  outcome : CreateOutcome
  log : List AttemptRec
  elapsed : Nat
  attemptsUsed : Nat
  ep : σ

/-- Value of max_retries in the infrastructure-stack variant. -/
def infraMaxRetries : Nat := 6

/-- Value of base_delay in the infrastructure-stack variant. -/
def infraBaseDelay : Nat := 60

/-- Per-attempt increment of the infrastructure-stack 403 backoff
(`delay = base_delay + attempt * 30`). -/
def infraDeniedStep : Nat := 30

/-- Base of the infrastructure-stack generic-exception backoff
(`base_delay // 2`). -/
def infraGenericBase : Nat := 30

/-- Per-attempt increment of the infrastructure-stack generic-exception
backoff. -/
def infraGenericStep : Nat := 15

/-- Value of max_retries in the application-stack variant. -/
def appMaxRetries : Nat := 5

/-- Value of base_delay in the application-stack variant. -/
def appBaseDelay : Nat := 90

/-- Per-attempt increment of the application-stack 403 backoff
(`delay = base_delay + attempt * 45`). -/
def appDeniedStep : Nat := 45

/-- Base of the application-stack generic-exception backoff
(`base_delay // 2`). -/
def appGenericBase : Nat := 45

/-- Per-attempt increment of the application-stack generic-exception
backoff. -/
def appGenericStep : Nat := 30

/-- The 2-minute buffer both variants reserve for the CloudFormation response
(`time_remaining() < 120` aborts; clamping keeps `delay + 120` within the
remaining budget when it can). -/
def safetyMargin : Nat := 120

/-- Minimum clamped delay in the 403 branches (`max(30, ...)`). -/
def deniedFloor : Nat := 30

/-- Minimum clamped delay in the generic-exception branches (`max(15, ...)`). -/
def genericFloor : Nat := 15

/-- The fixed execution budget both variants use: `13 * 60` seconds. -/
def lambdaBudget : Nat := 780

/-- The delay clamp both variants apply before sleeping:
`if time_remaining() < delay + 120: delay = max(floor, time_remaining() - 120)`.
`rem` is the remaining budget, `f` the variant's minimum delay. -/
def clampDelay (rem delay f : Nat) : Nat :=
  if rem < delay + safetyMargin then max f (rem - safetyMargin) else delay

/-- Outcome of one loop iteration: either the routine finishes (returns or
raises), or it sleeps and retries. -/
inductive StepRes (σ : Type) where
  | finished (out : CreateOutcome) (recs : List AttemptRec) (ep : σ) (used : Nat)
  | retry (rec : AttemptRec) (ep : σ) (slept : Nat)

/-- One iteration of the infrastructure-stack retry loop
(`create_opensearch_index` in `infrastructure-stack.ts`): deadline guard, HEAD
existence check (200 → already exists, 403 → denied backoff, other → fall
through to creation), PUT creation (200/201 → created, 403 → denied backoff,
other → `ValueError` which the `except ValueError: raise` clause re-raises
immediately), and the generic `except Exception` branch for network
exceptions. -/
def infraStep {σ : Type} (E : Endpoint σ) (D : Nat) (attempt : Nat) (ep : σ)
    (elapsed : Nat) : StepRes σ :=
  if D - elapsed < safetyMargin then
    .finished (.raised .deadlineAbort) [] ep attempt
  else
    let rsp1 := E ep .head .index
    match rsp1.1 with
    | none =>
      let c1 : NetCall := ⟨attempt, .head, .index, none⟩
      if attempt < infraMaxRetries - 1 then
        let req := infraGenericBase + attempt * infraGenericStep
        let slept := clampDelay (D - elapsed) req genericFloor
        .retry ⟨attempt, [c1], some ⟨attempt, .generic, elapsed, req, slept⟩⟩ rsp1.2 slept
      else
        .finished (.raised .netException) [⟨attempt, [c1], none⟩] rsp1.2 (attempt + 1)
    | some st1 =>
      let c1 : NetCall := ⟨attempt, .head, .index, some st1⟩
      if st1 = 200 then
        .finished .alreadyExists [⟨attempt, [c1], none⟩] rsp1.2 (attempt + 1)
      else if st1 = 403 then
        if attempt < infraMaxRetries - 1 then
          let req := infraBaseDelay + attempt * infraDeniedStep
          let slept := clampDelay (D - elapsed) req deniedFloor
          .retry ⟨attempt, [c1], some ⟨attempt, .denied, elapsed, req, slept⟩⟩ rsp1.2 slept
        else
          .finished (.raised .accessDenied) [⟨attempt, [c1], none⟩] rsp1.2 (attempt + 1)
      else
        let rsp2 := E rsp1.2 .put .index
        match rsp2.1 with
        | none =>
          let c2 : NetCall := ⟨attempt, .put, .index, none⟩
          if attempt < infraMaxRetries - 1 then
            let req := infraGenericBase + attempt * infraGenericStep
            let slept := clampDelay (D - elapsed) req genericFloor
            .retry ⟨attempt, [c1, c2], some ⟨attempt, .generic, elapsed, req, slept⟩⟩ rsp2.2 slept
          else
            .finished (.raised .netException) [⟨attempt, [c1, c2], none⟩] rsp2.2 (attempt + 1)
        | some st2 =>
          let c2 : NetCall := ⟨attempt, .put, .index, some st2⟩
          if st2 = 200 ∨ st2 = 201 then
            .finished .created [⟨attempt, [c1, c2], none⟩] rsp2.2 (attempt + 1)
          else if st2 = 403 then
            if attempt < infraMaxRetries - 1 then
              let req := infraBaseDelay + attempt * infraDeniedStep
              let slept := clampDelay (D - elapsed) req deniedFloor
              .retry ⟨attempt, [c1, c2], some ⟨attempt, .denied, elapsed, req, slept⟩⟩ rsp2.2 slept
            else
              .finished (.raised .accessDenied) [⟨attempt, [c1, c2], none⟩] rsp2.2 (attempt + 1)
          else
            .finished (.raised .permanentError) [⟨attempt, [c1, c2], none⟩] rsp2.2 (attempt + 1)

/-- The infrastructure-stack `for attempt in range(max_retries)` loop, with
`fuel` the number of iterations left (`attempt = max_retries - fuel`).  On
fuel exhaustion the Python `for` loop completes and the function returns
`None` (`fellThrough`). -/
def infraLoop {σ : Type} (E : Endpoint σ) (D : Nat) : Nat → St σ → RunResult σ
  | 0, s => ⟨.fellThrough, s.log, s.elapsed, infraMaxRetries, s.ep⟩
  | fuel + 1, s =>
    match infraStep E D (infraMaxRetries - (fuel + 1)) s.ep s.elapsed with
    | .finished out recs ep used => ⟨out, s.log ++ recs, s.elapsed, used, ep⟩
    | .retry rec ep slept => infraLoop E D fuel ⟨ep, s.elapsed + slept, s.log ++ [rec]⟩

/-- The function create_opensearch_index of `infrastructure-stack.ts`, run
against endpoint state `ep` with deadline `D`. -/
def infraCreate {σ : Type} (E : Endpoint σ) (D : Nat) (ep : σ) : RunResult σ :=
  infraLoop E D infraMaxRetries ⟨ep, 0, []⟩

/-- One iteration of the application-stack retry loop
(`create_opensearch_index` in `application-stack.ts`): deadline guard, HEAD
`_cluster/health` probe (200 → proceed, 403 → denied backoff, other →
`ValueError` caught by the generic handler), HEAD index existence check
(200 → already exists, anything else → proceed to creation), PUT creation
(200/201 → created, 403 → denied backoff, other → `ValueError` caught by the
generic handler).  The generic `except Exception` branch retries with the
shorter backoff unless the iteration is the last one, in which case it
re-raises. -/
def appStep {σ : Type} (E : Endpoint σ) (D : Nat) (attempt : Nat) (ep : σ)
    (elapsed : Nat) : StepRes σ :=
  if D - elapsed < safetyMargin then
    .finished (.raised .deadlineAbort) [] ep attempt
  else
    let rsp0 := E ep .head .health
    match rsp0.1 with
    | none =>
      let c0 : NetCall := ⟨attempt, .head, .health, none⟩
      if attempt < appMaxRetries - 1 then
        let req := appGenericBase + attempt * appGenericStep
        let slept := clampDelay (D - elapsed) req genericFloor
        .retry ⟨attempt, [c0], some ⟨attempt, .generic, elapsed, req, slept⟩⟩ rsp0.2 slept
      else
        .finished (.raised .netException) [⟨attempt, [c0], none⟩] rsp0.2 (attempt + 1)
    | some st0 =>
      let c0 : NetCall := ⟨attempt, .head, .health, some st0⟩
      if st0 = 403 then
        if attempt < appMaxRetries - 1 then
          let req := appBaseDelay + attempt * appDeniedStep
          let slept := clampDelay (D - elapsed) req deniedFloor
          .retry ⟨attempt, [c0], some ⟨attempt, .denied, elapsed, req, slept⟩⟩ rsp0.2 slept
        else
          .finished (.raised .accessDenied) [⟨attempt, [c0], none⟩] rsp0.2 (attempt + 1)
      else if st0 = 200 then
        let rsp1 := E rsp0.2 .head .index
        match rsp1.1 with
        | none =>
          let c1 : NetCall := ⟨attempt, .head, .index, none⟩
          if attempt < appMaxRetries - 1 then
            let req := appGenericBase + attempt * appGenericStep
            let slept := clampDelay (D - elapsed) req genericFloor
            .retry ⟨attempt, [c0, c1], some ⟨attempt, .generic, elapsed, req, slept⟩⟩ rsp1.2 slept
          else
            .finished (.raised .netException) [⟨attempt, [c0, c1], none⟩] rsp1.2 (attempt + 1)
        | some st1 =>
          let c1 : NetCall := ⟨attempt, .head, .index, some st1⟩
          if st1 = 200 then
            .finished .alreadyExists [⟨attempt, [c0, c1], none⟩] rsp1.2 (attempt + 1)
          else
            let rsp2 := E rsp1.2 .put .index
            match rsp2.1 with
            | none =>
              let c2 : NetCall := ⟨attempt, .put, .index, none⟩
              if attempt < appMaxRetries - 1 then
                let req := appGenericBase + attempt * appGenericStep
                let slept := clampDelay (D - elapsed) req genericFloor
                .retry ⟨attempt, [c0, c1, c2], some ⟨attempt, .generic, elapsed, req, slept⟩⟩
                  rsp2.2 slept
              else
                .finished (.raised .netException) [⟨attempt, [c0, c1, c2], none⟩] rsp2.2
                  (attempt + 1)
            | some st2 =>
              let c2 : NetCall := ⟨attempt, .put, .index, some st2⟩
              if st2 = 200 ∨ st2 = 201 then
                .finished .created [⟨attempt, [c0, c1, c2], none⟩] rsp2.2 (attempt + 1)
              else if st2 = 403 then
                if attempt < appMaxRetries - 1 then
                  let req := appBaseDelay + attempt * appDeniedStep
                  let slept := clampDelay (D - elapsed) req deniedFloor
                  .retry ⟨attempt, [c0, c1, c2], some ⟨attempt, .denied, elapsed, req, slept⟩⟩
                    rsp2.2 slept
                else
                  .finished (.raised .accessDenied) [⟨attempt, [c0, c1, c2], none⟩] rsp2.2
                    (attempt + 1)
              else
                if attempt < appMaxRetries - 1 then
                  let req := appGenericBase + attempt * appGenericStep
                  let slept := clampDelay (D - elapsed) req genericFloor
                  .retry ⟨attempt, [c0, c1, c2], some ⟨attempt, .generic, elapsed, req, slept⟩⟩
                    rsp2.2 slept
                else
                  .finished (.raised .permanentError) [⟨attempt, [c0, c1, c2], none⟩] rsp2.2
                    (attempt + 1)
      else
        if attempt < appMaxRetries - 1 then
          let req := appGenericBase + attempt * appGenericStep
          let slept := clampDelay (D - elapsed) req genericFloor
          .retry ⟨attempt, [c0], some ⟨attempt, .generic, elapsed, req, slept⟩⟩ rsp0.2 slept
        else
          .finished (.raised .permanentError) [⟨attempt, [c0], none⟩] rsp0.2 (attempt + 1)

/-- The application-stack `for attempt in range(max_retries)` loop.  On fuel
exhaustion the code after the loop raises
`ValueError("Failed to create index after ... attempts")`. -/
def appLoop {σ : Type} (E : Endpoint σ) (D : Nat) : Nat → St σ → RunResult σ
  | 0, s => ⟨.raised .retriesExhausted, s.log, s.elapsed, appMaxRetries, s.ep⟩
  | fuel + 1, s =>
    match appStep E D (appMaxRetries - (fuel + 1)) s.ep s.elapsed with
    | .finished out recs ep used => ⟨out, s.log ++ recs, s.elapsed, used, ep⟩
    | .retry rec ep slept => appLoop E D fuel ⟨ep, s.elapsed + slept, s.log ++ [rec]⟩

/-- The function create_opensearch_index of `application-stack.ts`. -/
def appCreate {σ : Type} (E : Endpoint σ) (D : Nat) (ep : σ) : RunResult σ :=
  appLoop E D appMaxRetries ⟨ep, 0, []⟩

/-- All network calls of a run, in order. -/
def callsOf {σ : Type} (r : RunResult σ) : List NetCall :=
  (r.log.map AttemptRec.calls).flatten

/-- All sleeps of a run, in order. -/
def sleepsOf {σ : Type} (r : RunResult σ) : List SleepEvent :=
  r.log.filterMap AttemptRec.sleep

/-- Status of the CloudFormation response body sent by `send_response`. -/
inductive CfnStatus
  | SUCCESS
  | FAILED
deriving DecidableEq

/-- Result of one handler invocation: the CloudFormation response bodies it
sent (the `finally` block sends exactly one) and the final endpoint state. -/
structure HandlerResult (σ : Type) where
  sent : List CfnStatus
  ep : σ

/-- Whether a `create_opensearch_index` outcome corresponds to an exception
escaping the function in Python. -/
def outcomeRaises : CreateOutcome → Bool
  | .raised _ => true
  | _ => false

/-- The `handler` of `infrastructure-stack.ts`: dispatch on `RequestType`
(Create runs the index creation; Delete and Update are no-ops reported as
SUCCESS; any other request type is reported as FAILED), every exception is
caught, and the `finally` block always sends exactly one response. -/
def infraHandler {σ : Type} (E : Endpoint σ) (D : Nat) (requestType : String)
    (ep : σ) : HandlerResult σ :=
  if requestType = "Create" then
    let r := infraCreate E D ep
    ⟨[if outcomeRaises r.outcome then .FAILED else .SUCCESS], r.ep⟩
  else if requestType = "Delete" then ⟨[.SUCCESS], ep⟩
  else if requestType = "Update" then ⟨[.SUCCESS], ep⟩
  else ⟨[.FAILED], ep⟩

/-- The `handler` of `application-stack.ts`: Create runs the index creation,
Delete is a no-op, and every other request type (including Update) is treated
as SUCCESS "to avoid blocking"; the `finally` block always sends exactly one
response. -/
def appHandler {σ : Type} (E : Endpoint σ) (D : Nat) (requestType : String)
    (ep : σ) : HandlerResult σ :=
  if requestType = "Create" then
    let r := appCreate E D ep
    ⟨[if outcomeRaises r.outcome then .FAILED else .SUCCESS], r.ep⟩
  else if requestType = "Delete" then ⟨[.SUCCESS], ep⟩
  else ⟨[.SUCCESS], ep⟩

/-- Endpoint that answers every request with HTTP 403 (access-control policy
never propagates). -/
def denyAllEp : Endpoint Unit := fun u _ _ => (some 403, u)

/-- Endpoint that always answers HTTP 200 (used where the endpoint is
irrelevant, e.g. non-Create request types). -/
def okEp : Endpoint Unit := fun u _ _ => (some 200, u)

/-- A well-behaved collection: its state records whether the index exists;
health probes answer 200, the index HEAD answers 200 or 404 according to the
state, and a PUT creates the index. -/
def wellBehavedEp : Endpoint Bool := fun ex m t =>
  match t, m with
  | .health, _ => (some 200, ex)
  | .index, .head => (if ex then some 200 else some 404, ex)
  | .index, .put => (some 200, true)

/-- Endpoint whose index HEAD answers 404 and whose PUT answers a fixed status
`st` (used for the non-auth creation-error claims against the
infrastructure-stack variant, which never probes `_cluster/health`). -/
def infraFailPutEp (st : Nat) : Endpoint Unit := fun u m _ =>
  (some (match m with | .head => 404 | .put => st), u)

/-- Endpoint whose health probe answers 200, whose index HEAD answers 404 and
whose PUT answers a fixed status `st`. -/
def appFailPutEp (st : Nat) : Endpoint Unit := fun u m t =>
  (some (match t, m with
    | .health, _ => 200
    | .index, .head => 404
    | .index, .put => st), u)

/-- Whether a network call is the index existence check (HEAD on the index
URL). -/
def isIndexHead (c : NetCall) : Bool :=
  decide (c.meth = Meth.head) && decide (c.target = Target.index)

/-- Whether a network call is a creation (PUT) request. -/
def isPutCall (c : NetCall) : Bool :=
  decide (c.meth = Meth.put)

/-- Whether a network call is a PUT that the endpoint answered with 200/201,
i.e. a creation that actually created the remote index. -/
def succPut (c : NetCall) : Bool :=
  decide (c.meth = Meth.put) && (decide (c.status = some 200) || decide (c.status = some 201))

/-- Scan of a call list checking that every PUT is preceded by an earlier HEAD
on the index URL; `seen` records whether an index HEAD has occurred yet. -/
def hbpGo : Bool → List NetCall → Bool
  | _, [] => true
  | seen, c :: cs =>
    match c.meth with
    | .put => seen && hbpGo seen cs
    | .head => hbpGo (seen || decide (c.target = Target.index)) cs

/-- Every PUT in the list is preceded by an earlier index HEAD. -/
def headBeforePut (l : List NetCall) : Bool := hbpGo false l

/-- Within one attempt, the existence check precedes any creation request. -/
def attemptCallsOk (a : AttemptRec) : Bool := headBeforePut a.calls

/-- Total number of network calls recorded in a log. -/
def callsLenLog (log : List AttemptRec) : Nat :=
  (log.map (fun a => a.calls.length)).sum

/-- Number of successful creations recorded in a log. -/
def succPutLog (log : List AttemptRec) : Nat :=
  (log.map (fun a => (a.calls.filter succPut).length)).sum

/-- All sleeps recorded in a log, in order. -/
def sleepsOfLog (log : List AttemptRec) : List SleepEvent :=
  log.filterMap AttemptRec.sleep

theorem sleepsOf_eq_log {σ : Type} (r : RunResult σ) : sleepsOf r = sleepsOfLog r.log := rfl

theorem callsOf_length {σ : Type} (r : RunResult σ) :
    (callsOf r).length = callsLenLog r.log := by
  simp [callsOf, callsLenLog, List.length_flatten, List.map_map, Function.comp_def]

theorem filter_flatten_length (p : NetCall → Bool) (L : List (List NetCall)) :
    ((L.flatten).filter p).length = (L.map (fun l => (l.filter p).length)).sum := by
  induction L with
  | nil => rfl
  | cons l L ih => simp [List.filter_append, ih, Function.comp_def]

theorem succPut_callsOf {σ : Type} (r : RunResult σ) :
    ((callsOf r).filter succPut).length = succPutLog r.log := by
  simp [callsOf, succPutLog, filter_flatten_length, List.map_map, Function.comp_def]

theorem clamp_le_sub (rem req f : Nat) (hf : f ≤ 30) (h : safetyMargin ≤ rem) :
    clampDelay rem req f + 90 ≤ rem := by
  unfold clampDelay safetyMargin at *
  split
  · rcases max_cases f (rem - 120) with ⟨hm, _⟩ | ⟨hm, _⟩ <;> rw [hm] <;> omega
  · omega

theorem clamp_margin (rem req f : Nat) (hf : f ≤ 30) (h : 150 ≤ rem) :
    clampDelay rem req f + safetyMargin ≤ rem := by
  unfold clampDelay safetyMargin at *
  split
  · rw [max_eq_right (by omega : f ≤ rem - 120)]
    omega
  · omega

theorem succPut_head (a : Nat) (t : Target) (st : Option Nat) :
    succPut ⟨a, Meth.head, t, st⟩ = false := rfl

theorem filter_cons_false (c : NetCall) (l : List NetCall) (h : succPut c = false) :
    List.filter succPut (c :: l) = List.filter succPut l := by
  simp [List.filter_cons, h]

theorem filter_single_le_one (c : NetCall) : (List.filter succPut [c]).length ≤ 1 := by
  cases hc : succPut c <;> simp [List.filter, hc]

theorem filter_pair_le_one (c1 c2 : NetCall) (h1 : succPut c1 = false) :
    (List.filter succPut [c1, c2]).length ≤ 1 := by
  rw [filter_cons_false c1 [c2] h1]
  exact filter_single_le_one c2

theorem filter_triple_le_one (c1 c2 c3 : NetCall) (h1 : succPut c1 = false)
    (h2 : succPut c2 = false) : (List.filter succPut [c1, c2, c3]).length ≤ 1 := by
  rw [filter_cons_false c1 [c2, c3] h1, filter_cons_false c2 [c3] h2]
  exact filter_single_le_one c3

/-- Facts true of every `retry` outcome of a loop iteration: the deadline guard
held, the record is well-formed, no index was created, and the sleep follows
the variant's backoff formula (`dbase + k * dstep` for 403, `gbase + k * gstep`
for generic exceptions) composed with the deadline clamp. -/
def RetryOk (dbase dstep gbase gstep mc D k e : Nat) (rec : AttemptRec) (slept : Nat) : Prop :=
  safetyMargin ≤ D - e ∧ rec.idx = k ∧ attemptCallsOk rec = true ∧
  rec.calls.length ≤ mc ∧ (rec.calls.filter succPut).length = 0 ∧
  ∃ ev, rec.sleep = some ev ∧ ev.attempt = k ∧ ev.now = e ∧ ev.slept = slept ∧
    ((ev.kind = .denied ∧ ev.requested = dbase + k * dstep ∧
        slept = clampDelay (D - e) ev.requested deniedFloor) ∨
     (ev.kind = .generic ∧ ev.requested = gbase + k * gstep ∧
        slept = clampDelay (D - e) ev.requested genericFloor))

/-- Facts true of every `finished` outcome of a loop iteration: the reported
attempt count is at most `k + 1`, and the final record (if any) is well-formed,
contains at most one successful creation and no sleep. -/
def FinOk (mc k : Nat) (recs : List AttemptRec) (used : Nat) : Prop :=
  used ≤ k + 1 ∧ recs.length ≤ 1 ∧ ∀ a ∈ recs, a.idx = k ∧ attemptCallsOk a = true ∧
    a.calls.length ≤ mc ∧ (a.calls.filter succPut).length ≤ 1 ∧ a.sleep = none

/-- Per-iteration invariant, dispatching on the iteration's outcome. -/
def StepOkP {σ : Type} (dbase dstep gbase gstep mc D k e : Nat) : StepRes σ → Prop
  | .finished _ recs _ used => FinOk mc k recs used
  | .retry rec _ slept => RetryOk dbase dstep gbase gstep mc D k e rec slept

theorem infraStep_ok {σ : Type} (E : Endpoint σ) (D k : Nat) (ep : σ) (e : Nat) :
    StepOkP infraBaseDelay infraDeniedStep infraGenericBase infraGenericStep 2 D k e
      (infraStep E D k ep e) := by
  simp only [infraStep]
  repeat' split
  all_goals first
    | (refine ⟨by omega, rfl, ?_, by simp, ?_, _, rfl, rfl, rfl, rfl, Or.inl ⟨rfl, rfl, rfl⟩⟩
       · rfl
       · first | rfl | simp_all [succPut, List.filter])
    | (refine ⟨by omega, rfl, ?_, by simp, ?_, _, rfl, rfl, rfl, rfl, Or.inr ⟨rfl, rfl, rfl⟩⟩
       · rfl
       · first | rfl | simp_all [succPut, List.filter])
    | (refine ⟨by omega, by simp, ?_⟩
       intro a ha
       first
         | exact absurd ha (List.not_mem_nil a)
         | (rw [List.mem_singleton] at ha
            subst ha
            refine ⟨rfl, ?_, by simp, ?_, rfl⟩
            · rfl
            · first
                | exact filter_triple_le_one _ _ _ rfl rfl
                | exact filter_pair_le_one _ _ rfl
                | exact filter_single_le_one _))

theorem appStep_ok {σ : Type} (E : Endpoint σ) (D k : Nat) (ep : σ) (e : Nat) :
    StepOkP appBaseDelay appDeniedStep appGenericBase appGenericStep 3 D k e
      (appStep E D k ep e) := by
  simp only [appStep]
  repeat' split
  all_goals first
    | (refine ⟨by omega, rfl, ?_, by simp, ?_, _, rfl, rfl, rfl, rfl, Or.inl ⟨rfl, rfl, rfl⟩⟩
       · rfl
       · first | rfl | simp_all [succPut, List.filter])
    | (refine ⟨by omega, rfl, ?_, by simp, ?_, _, rfl, rfl, rfl, rfl, Or.inr ⟨rfl, rfl, rfl⟩⟩
       · rfl
       · first | rfl | simp_all [succPut, List.filter])
    | (refine ⟨by omega, by simp, ?_⟩
       intro a ha
       first
         | exact absurd ha (List.not_mem_nil a)
         | (rw [List.mem_singleton] at ha
            subst ha
            refine ⟨rfl, ?_, by simp, ?_, rfl⟩
            · rfl
            · first
                | exact filter_triple_le_one _ _ _ rfl rfl
                | exact filter_pair_le_one _ _ rfl
                | exact filter_single_le_one _))

theorem succPutLog_append (l1 l2 : List AttemptRec) :
    succPutLog (l1 ++ l2) = succPutLog l1 + succPutLog l2 := by
  simp [succPutLog]

theorem callsLenLog_append (l1 l2 : List AttemptRec) :
    callsLenLog (l1 ++ l2) = callsLenLog l1 + callsLenLog l2 := by
  simp [callsLenLog]

theorem logMeasure_le {g : AttemptRec → Nat} {recs : List AttemptRec} {bound : Nat}
    (hl : recs.length ≤ 1) (hb : ∀ a ∈ recs, g a ≤ bound) : (recs.map g).sum ≤ bound := by
  match recs with
  | [] => simp
  | [a] => simpa using hb a (by simp)
  | a :: b :: t => simp at hl

/-- Facts true of every attempt record a loop produces: the existence check
precedes any creation, at most `mc` calls and one successful creation, and any
recorded sleep was guarded by the deadline check and follows the variant's
backoff formula composed with the deadline clamp. -/
def RecOkP (dbase dstep gbase gstep mc D : Nat) (a : AttemptRec) : Prop :=
  attemptCallsOk a = true ∧ a.calls.length ≤ mc ∧ (a.calls.filter succPut).length ≤ 1 ∧
  ∀ ev, a.sleep = some ev → ev.attempt = a.idx ∧ safetyMargin ≤ D - ev.now ∧
    ((ev.kind = .denied ∧ ev.requested = dbase + ev.attempt * dstep ∧
        ev.slept = clampDelay (D - ev.now) ev.requested deniedFloor) ∨
     (ev.kind = .generic ∧ ev.requested = gbase + ev.attempt * gstep ∧
        ev.slept = clampDelay (D - ev.now) ev.requested genericFloor))

theorem infraLoop_master {σ : Type} (E : Endpoint σ) (D : Nat) :
    ∀ (fuel : Nat) (s : St σ),
      (infraLoop E D fuel s).elapsed ≤ max s.elapsed D ∧
      (infraLoop E D fuel s).attemptsUsed ≤ infraMaxRetries ∧
      succPutLog (infraLoop E D fuel s).log ≤ succPutLog s.log + 1 ∧
      callsLenLog (infraLoop E D fuel s).log ≤ callsLenLog s.log + 2 * fuel ∧
      ((∀ a ∈ s.log, RecOkP infraBaseDelay infraDeniedStep infraGenericBase infraGenericStep 2 D a) →
        ∀ a ∈ (infraLoop E D fuel s).log,
          RecOkP infraBaseDelay infraDeniedStep infraGenericBase infraGenericStep 2 D a) := by
  intro fuel
  induction fuel with
  | zero =>
    intro s
    simp only [infraLoop]
    exact ⟨le_max_left _ _, le_refl _, by omega, by omega, fun h => h⟩
  | succ n ih =>
    intro s
    rcases hstep : infraStep E D (infraMaxRetries - (n + 1)) s.ep s.elapsed with
      ⟨out, recs, ep2, used⟩ | ⟨rec, ep2, slept⟩
    · have hok := infraStep_ok E D (infraMaxRetries - (n + 1)) s.ep s.elapsed
      rw [hstep] at hok
      obtain ⟨hused, hlen1, hrecs⟩ := hok
      simp only [infraLoop, hstep]
      refine ⟨le_max_left _ _, ?_, ?_, ?_, ?_⟩
      · have h6 : infraMaxRetries = 6 := rfl
        omega
      · rw [succPutLog_append]
        have h2 : succPutLog recs ≤ 1 :=
          logMeasure_le hlen1 (fun a ha => (hrecs a ha).2.2.2.1)
        omega
      · rw [callsLenLog_append]
        have h2 : callsLenLog recs ≤ 2 :=
          logMeasure_le hlen1 (fun a ha => (hrecs a ha).2.2.1)
        omega
      · intro hlog a ha
        rcases List.mem_append.mp ha with h | h
        · exact hlog a h
        · obtain ⟨hidx, hok', hlen, hfil, hsleep⟩ := hrecs a h
          exact ⟨hok', hlen, hfil, fun ev hev => by rw [hsleep] at hev; cases hev⟩
    · have hok := infraStep_ok E D (infraMaxRetries - (n + 1)) s.ep s.elapsed
      rw [hstep] at hok
      obtain ⟨hguard, hidx, hcok, hclen, hcfil, ev, hsleep, hatt, hnow, hslept, hdisj⟩ := hok
      simp only [infraLoop, hstep]
      have hD : s.elapsed + slept + 90 ≤ D := by
        have hsm : safetyMargin = 120 := rfl
        rcases hdisj with ⟨_, _, hs⟩ | ⟨_, _, hs⟩
        · have hc := clamp_le_sub (D - s.elapsed) ev.requested deniedFloor
            (by norm_num [deniedFloor]) hguard
          omega
        · have hc := clamp_le_sub (D - s.elapsed) ev.requested genericFloor
            (by norm_num [genericFloor]) hguard
          omega
      obtain ⟨ih1, ih2, ih3, ih4, ih5⟩ := ih ⟨ep2, s.elapsed + slept, s.log ++ [rec]⟩
      refine ⟨?_, ih2, ?_, ?_, ?_⟩
      · calc (infraLoop E D n ⟨ep2, s.elapsed + slept, s.log ++ [rec]⟩).elapsed
            ≤ max (s.elapsed + slept) D := ih1
          _ = D := max_eq_right (by omega)
          _ ≤ max s.elapsed D := le_max_right _ _
      · have := ih3
        rw [succPutLog_append] at this
        have h0 : succPutLog [rec] = 0 := by simp [succPutLog, hcfil]
        omega
      · have := ih4
        rw [callsLenLog_append] at this
        have h2 : callsLenLog [rec] ≤ 2 := by simp [callsLenLog]; omega
        omega
      · intro hlog
        refine ih5 ?_
        intro a ha
        rcases List.mem_append.mp ha with h | h
        · exact hlog a h
        · rw [List.mem_singleton] at h
          subst h
          refine ⟨hcok, hclen, by omega, ?_⟩
          intro ev' hev'
          rw [hsleep] at hev'
          injection hev' with hev'
          subst hev'
          refine ⟨by rw [hatt, hidx], by rw [hnow]; exact hguard, ?_⟩
          rcases hdisj with ⟨hk, hr, hs⟩ | ⟨hk, hr, hs⟩
          · exact Or.inl ⟨hk, by rw [hatt]; exact hr, by rw [hnow, hslept]; exact hs⟩
          · exact Or.inr ⟨hk, by rw [hatt]; exact hr, by rw [hnow, hslept]; exact hs⟩

theorem appLoop_master {σ : Type} (E : Endpoint σ) (D : Nat) :
    ∀ (fuel : Nat) (s : St σ),
      (appLoop E D fuel s).elapsed ≤ max s.elapsed D ∧
      (appLoop E D fuel s).attemptsUsed ≤ appMaxRetries ∧
      succPutLog (appLoop E D fuel s).log ≤ succPutLog s.log + 1 ∧
      callsLenLog (appLoop E D fuel s).log ≤ callsLenLog s.log + 3 * fuel ∧
      ((∀ a ∈ s.log, RecOkP appBaseDelay appDeniedStep appGenericBase appGenericStep 3 D a) →
        ∀ a ∈ (appLoop E D fuel s).log,
          RecOkP appBaseDelay appDeniedStep appGenericBase appGenericStep 3 D a) := by
  intro fuel
  induction fuel with
  | zero =>
    intro s
    simp only [appLoop]
    exact ⟨le_max_left _ _, le_refl _, by omega, by omega, fun h => h⟩
  | succ n ih =>
    intro s
    rcases hstep : appStep E D (appMaxRetries - (n + 1)) s.ep s.elapsed with
      ⟨out, recs, ep2, used⟩ | ⟨rec, ep2, slept⟩
    · have hok := appStep_ok E D (appMaxRetries - (n + 1)) s.ep s.elapsed
      rw [hstep] at hok
      obtain ⟨hused, hlen1, hrecs⟩ := hok
      simp only [appLoop, hstep]
      refine ⟨le_max_left _ _, ?_, ?_, ?_, ?_⟩
      · have h5 : appMaxRetries = 5 := rfl
        omega
      · rw [succPutLog_append]
        have h2 : succPutLog recs ≤ 1 :=
          logMeasure_le hlen1 (fun a ha => (hrecs a ha).2.2.2.1)
        omega
      · rw [callsLenLog_append]
        have h2 : callsLenLog recs ≤ 3 :=
          logMeasure_le hlen1 (fun a ha => (hrecs a ha).2.2.1)
        omega
      · intro hlog a ha
        rcases List.mem_append.mp ha with h | h
        · exact hlog a h
        · obtain ⟨hidx, hok', hlen, hfil, hsleep⟩ := hrecs a h
          exact ⟨hok', hlen, hfil, fun ev hev => by rw [hsleep] at hev; cases hev⟩
    · have hok := appStep_ok E D (appMaxRetries - (n + 1)) s.ep s.elapsed
      rw [hstep] at hok
      obtain ⟨hguard, hidx, hcok, hclen, hcfil, ev, hsleep, hatt, hnow, hslept, hdisj⟩ := hok
      simp only [appLoop, hstep]
      have hD : s.elapsed + slept + 90 ≤ D := by
        have hsm : safetyMargin = 120 := rfl
        rcases hdisj with ⟨_, _, hs⟩ | ⟨_, _, hs⟩
        · have hc := clamp_le_sub (D - s.elapsed) ev.requested deniedFloor
            (by norm_num [deniedFloor]) hguard
          omega
        · have hc := clamp_le_sub (D - s.elapsed) ev.requested genericFloor
            (by norm_num [genericFloor]) hguard
          omega
      obtain ⟨ih1, ih2, ih3, ih4, ih5⟩ := ih ⟨ep2, s.elapsed + slept, s.log ++ [rec]⟩
      refine ⟨?_, ih2, ?_, ?_, ?_⟩
      · calc (appLoop E D n ⟨ep2, s.elapsed + slept, s.log ++ [rec]⟩).elapsed
            ≤ max (s.elapsed + slept) D := ih1
          _ = D := max_eq_right (by omega)
          _ ≤ max s.elapsed D := le_max_right _ _
      · have := ih3
        rw [succPutLog_append] at this
        have h0 : succPutLog [rec] = 0 := by simp [succPutLog, hcfil]
        omega
      · have := ih4
        rw [callsLenLog_append] at this
        have h2 : callsLenLog [rec] ≤ 3 := by simp [callsLenLog]; omega
        omega
      · intro hlog
        refine ih5 ?_
        intro a ha
        rcases List.mem_append.mp ha with h | h
        · exact hlog a h
        · rw [List.mem_singleton] at h
          subst h
          refine ⟨hcok, hclen, by omega, ?_⟩
          intro ev' hev'
          rw [hsleep] at hev'
          injection hev' with hev'
          subst hev'
          refine ⟨by rw [hatt, hidx], by rw [hnow]; exact hguard, ?_⟩
          rcases hdisj with ⟨hk, hr, hs⟩ | ⟨hk, hr, hs⟩
          · exact Or.inl ⟨hk, by rw [hatt]; exact hr, by rw [hnow, hslept]; exact hs⟩
          · exact Or.inr ⟨hk, by rw [hatt]; exact hr, by rw [hnow, hslept]; exact hs⟩

theorem infraStep_denyAll (D k : Nat) (u : Unit) (e : Nat) :
    infraStep denyAllEp D k u e =
      if D - e < safetyMargin then .finished (.raised .deadlineAbort) [] u k
      else if k < infraMaxRetries - 1 then
        .retry ⟨k, [⟨k, .head, .index, some 403⟩],
            some ⟨k, .denied, e, infraBaseDelay + k * infraDeniedStep,
              clampDelay (D - e) (infraBaseDelay + k * infraDeniedStep) deniedFloor⟩⟩ u
          (clampDelay (D - e) (infraBaseDelay + k * infraDeniedStep) deniedFloor)
      else
        .finished (.raised .accessDenied) [⟨k, [⟨k, .head, .index, some 403⟩], none⟩] u
          (k + 1) := rfl

theorem appStep_denyAll (D k : Nat) (u : Unit) (e : Nat) :
    appStep denyAllEp D k u e =
      if D - e < safetyMargin then .finished (.raised .deadlineAbort) [] u k
      else if k < appMaxRetries - 1 then
        .retry ⟨k, [⟨k, .head, .health, some 403⟩],
            some ⟨k, .denied, e, appBaseDelay + k * appDeniedStep,
              clampDelay (D - e) (appBaseDelay + k * appDeniedStep) deniedFloor⟩⟩ u
          (clampDelay (D - e) (appBaseDelay + k * appDeniedStep) deniedFloor)
      else
        .finished (.raised .accessDenied) [⟨k, [⟨k, .head, .health, some 403⟩], none⟩] u
          (k + 1) := rfl

theorem infraLoop_denyAll_raises (D : Nat) :
    ∀ fuel, 1 ≤ fuel → ∀ s : St Unit,
      outcomeRaises (infraLoop denyAllEp D fuel s).outcome = true := by
  intro fuel
  induction fuel with
  | zero => intro h; exact absurd h (by omega)
  | succ n ih =>
    intro _ s
    simp only [infraLoop, infraStep_denyAll]
    by_cases hg : D - s.elapsed < safetyMargin
    · rw [if_pos hg]
      exact rfl
    · rw [if_neg hg]
      by_cases hk : infraMaxRetries - (n + 1) < infraMaxRetries - 1
      · rw [if_pos hk]
        have hn : 1 ≤ n := by
          have h6 : infraMaxRetries = 6 := rfl
          omega
        exact ih hn _
      · rw [if_neg hk]
        exact rfl

theorem appLoop_denyAll_raises (D : Nat) :
    ∀ fuel, 1 ≤ fuel → ∀ s : St Unit,
      outcomeRaises (appLoop denyAllEp D fuel s).outcome = true := by
  intro fuel
  induction fuel with
  | zero => intro h; exact absurd h (by omega)
  | succ n ih =>
    intro _ s
    simp only [appLoop, appStep_denyAll]
    by_cases hg : D - s.elapsed < safetyMargin
    · rw [if_pos hg]
      exact rfl
    · rw [if_neg hg]
      by_cases hk : appMaxRetries - (n + 1) < appMaxRetries - 1
      · rw [if_pos hk]
        have hn : 1 ≤ n := by
          have h5 : appMaxRetries = 5 := rfl
          omega
        exact ih hn _
      · rw [if_neg hk]
        exact rfl

/-- C1: for every deadline `D` and every endpoint behaviour (in particular
every sequence of `TransientDenied`/403 responses), the total wall-clock time
consumed by `create_opensearch_index` never exceeds `D` in either variant:
the deadline check before every attempt and the clamp before every retry sleep
keep the accumulated sleep time within the budget (time is modelled as
advancing only during sleeps). -/
theorem createIndex_deadline_respected {σ : Type} (E : Endpoint σ) (D : Nat) (ep : σ) :
    (infraCreate E D ep).elapsed ≤ D ∧ (appCreate E D ep).elapsed ≤ D := by
  constructor
  · have h := (infraLoop_master E D infraMaxRetries ⟨ep, 0, []⟩).1
    simpa [infraCreate, Nat.zero_max] using h
  · have h := (appLoop_master E D appMaxRetries ⟨ep, 0, []⟩).1
    simpa [appCreate, Nat.zero_max] using h

/-- C2: against an endpoint that answers every request (existence check and
creation alike) with HTTP 403, both variants raise — so the handler reports
FAILED — after at most 6 attempts (`max_retries = 6` in the
infrastructure-stack variant, `5` in the application-stack variant); the loop
is structurally bounded by `max_retries` and never retries indefinitely. -/
theorem createIndex_bounded_retries (D : Nat) :
    (infraHandler denyAllEp D "Create" ()).sent = [CfnStatus.FAILED] ∧
    (infraCreate denyAllEp D ()).attemptsUsed ≤ 6 ∧
    (appHandler denyAllEp D "Create" ()).sent = [CfnStatus.FAILED] ∧
    (appCreate denyAllEp D ()).attemptsUsed ≤ 6 := by
  have h1 : outcomeRaises (infraCreate denyAllEp D ()).outcome = true :=
    infraLoop_denyAll_raises D infraMaxRetries (by norm_num [infraMaxRetries]) _
  have h2 : outcomeRaises (appCreate denyAllEp D ()).outcome = true :=
    appLoop_denyAll_raises D appMaxRetries (by norm_num [appMaxRetries]) _
  refine ⟨?_, ?_, ?_, ?_⟩
  · simp [infraHandler, h1]
  · have h : (infraCreate denyAllEp D ()).attemptsUsed ≤ infraMaxRetries :=
      (infraLoop_master denyAllEp D infraMaxRetries ⟨(), 0, []⟩).2.1
    have h6 : infraMaxRetries = 6 := rfl
    omega
  · simp [appHandler, h2]
  · have h : (appCreate denyAllEp D ()).attemptsUsed ≤ appMaxRetries :=
      (appLoop_master denyAllEp D appMaxRetries ⟨(), 0, []⟩).2.1
    have h5 : appMaxRetries = 5 := rfl
    omega

/-- C3: against a well-behaved collection, the first invocation creates the
index (`Created`) and leaves the endpoint with the index present; the second
invocation returns `AlreadyExists` immediately from the HEAD existence check
(status 200), issuing exactly one index existence-check call and zero creation
(PUT) calls — in both variants (the application-stack variant additionally
probes `_cluster/health`, which is not an existence check). -/
theorem createIndex_idempotent_second_call :
    (infraCreate wellBehavedEp 780 false).outcome = CreateOutcome.created ∧
    (infraCreate wellBehavedEp 780 false).ep = true ∧
    (infraCreate wellBehavedEp 780 (infraCreate wellBehavedEp 780 false).ep).outcome
      = CreateOutcome.alreadyExists ∧
    ((callsOf (infraCreate wellBehavedEp 780 (infraCreate wellBehavedEp 780 false).ep)).filter
        isIndexHead).length = 1 ∧
    ((callsOf (infraCreate wellBehavedEp 780 (infraCreate wellBehavedEp 780 false).ep)).filter
        isPutCall).length = 0 ∧
    (appCreate wellBehavedEp 780 false).outcome = CreateOutcome.created ∧
    (appCreate wellBehavedEp 780 false).ep = true ∧
    (appCreate wellBehavedEp 780 (appCreate wellBehavedEp 780 false).ep).outcome
      = CreateOutcome.alreadyExists ∧
    ((callsOf (appCreate wellBehavedEp 780 (appCreate wellBehavedEp 780 false).ep)).filter
        isIndexHead).length = 1 ∧
    ((callsOf (appCreate wellBehavedEp 780 (appCreate wellBehavedEp 780 false).ep)).filter
        isPutCall).length = 0 := by
  decide

/-- C6: every invocation of either handler sends exactly one definitive status
body (`SUCCESS` or `FAILED`) to the CloudFormation response URL, for every
request type, deadline and endpoint behaviour — deadline aborts and raised
exceptions included; the `try/except/finally` structure never lets an
exception escape the handler. -/
theorem handler_single_definitive_response {σ : Type} (E : Endpoint σ) (D : Nat)
    (rt : String) (ep : σ) :
    ((infraHandler E D rt ep).sent = [CfnStatus.SUCCESS] ∨
      (infraHandler E D rt ep).sent = [CfnStatus.FAILED]) ∧
    ((appHandler E D rt ep).sent = [CfnStatus.SUCCESS] ∨
      (appHandler E D rt ep).sent = [CfnStatus.FAILED]) := by
  constructor
  · unfold infraHandler
    dsimp only
    repeat' split
    all_goals first | (left; rfl) | (right; rfl)
  · unfold appHandler
    dsimp only
    repeat' split
    all_goals first | (left; rfl) | (right; rfl)

/-- C8: the two embedded handlers are not equivalent functions of the request
event: on a request type that is neither Create nor Delete nor Update
("Custom"), the infrastructure-stack handler reports FAILED while the
application-stack handler reports SUCCESS, and the two variants use different
backoff constants (6 retries / 60s base / 30s step versus 5 retries / 90s
base / 45s step). -/
theorem handler_variants_diverge :
    (infraHandler okEp 780 "Custom" ()).sent = [CfnStatus.FAILED] ∧
    (appHandler okEp 780 "Custom" ()).sent = [CfnStatus.SUCCESS] ∧
    infraMaxRetries = 6 ∧ infraBaseDelay = 60 ∧ infraDeniedStep = 30 ∧
    appMaxRetries = 5 ∧ appBaseDelay = 90 ∧ appDeniedStep = 45 ∧
    (infraMaxRetries, infraBaseDelay, infraDeniedStep) ≠
      (appMaxRetries, appBaseDelay, appDeniedStep) := by
  refine ⟨rfl, rfl, rfl, rfl, rfl, rfl, rfl, rfl, by decide⟩

/-- C9: in every execution of either variant, within each attempt the index
existence check (HEAD) precedes any creation (PUT) call, at most one PUT ever
receives a success status (a successful creation terminates the routine), and
the total number of network calls is bounded by the retry cap: at most 2 calls
per attempt over 6 attempts for the infrastructure-stack variant, 3 over 5 for
the application-stack variant. -/
theorem createIndex_call_invariants {σ : Type} (E : Endpoint σ) (D : Nat) (ep : σ) :
    (∀ a ∈ (infraCreate E D ep).log, attemptCallsOk a = true) ∧
    ((callsOf (infraCreate E D ep)).filter succPut).length ≤ 1 ∧
    (callsOf (infraCreate E D ep)).length ≤ 2 * infraMaxRetries ∧
    (∀ a ∈ (appCreate E D ep).log, attemptCallsOk a = true) ∧
    ((callsOf (appCreate E D ep)).filter succPut).length ≤ 1 ∧
    (callsOf (appCreate E D ep)).length ≤ 3 * appMaxRetries := by
  obtain ⟨-, -, h3, h4, h5⟩ := infraLoop_master E D infraMaxRetries ⟨ep, 0, []⟩
  obtain ⟨-, -, g3, g4, g5⟩ := appLoop_master E D appMaxRetries ⟨ep, 0, []⟩
  refine ⟨?_, ?_, ?_, ?_, ?_, ?_⟩
  · intro a ha
    exact (h5 (by simp) a ha).1
  · rw [succPut_callsOf]
    simpa [succPutLog] using h3
  · rw [callsOf_length]
    simpa [callsLenLog] using h4
  · intro a ha
    exact (g5 (by simp) a ha).1
  · rw [succPut_callsOf]
    simpa [succPutLog] using g3
  · rw [callsOf_length]
    simpa [callsLenLog] using g4

theorem createIndex_call_invariants_witness :
    (⟨0, [⟨0, Meth.head, Target.index, some 200⟩], none⟩ : AttemptRec)
        ∈ (infraCreate wellBehavedEp 780 true).log ∧
    attemptCallsOk (⟨0, [⟨0, Meth.head, Target.index, some 200⟩], none⟩ : AttemptRec) = true :=
  ⟨by decide,
    (createIndex_call_invariants wellBehavedEp 780 true).1 _ (by decide)⟩

theorem recOk_sleep_bounds {dbase dstep gbase gstep mc D : Nat} {a : AttemptRec}
    (h : RecOkP dbase dstep gbase gstep mc D a) {ev : SleepEvent}
    (hev : a.sleep = some ev) :
    safetyMargin ≤ D - ev.now ∧ ev.now + ev.slept + 90 ≤ D ∧
      (150 ≤ D - ev.now → ev.now + ev.slept + safetyMargin ≤ D) := by
  obtain ⟨-, -, -, hs⟩ := h
  obtain ⟨-, hguard, hdisj⟩ := hs ev hev
  have hsm : safetyMargin = 120 := rfl
  refine ⟨hguard, ?_, ?_⟩
  · rcases hdisj with ⟨-, -, hs'⟩ | ⟨-, -, hs'⟩
    · have hc := clamp_le_sub (D - ev.now) ev.requested deniedFloor
        (by norm_num [deniedFloor]) hguard
      omega
    · have hc := clamp_le_sub (D - ev.now) ev.requested genericFloor
        (by norm_num [genericFloor]) hguard
      omega
  · intro h150
    rcases hdisj with ⟨-, -, hs'⟩ | ⟨-, -, hs'⟩
    · have hc := clamp_margin (D - ev.now) ev.requested deniedFloor
        (by norm_num [deniedFloor]) h150
      omega
    · have hc := clamp_margin (D - ev.now) ev.requested genericFloor
        (by norm_num [genericFloor]) h150
      omega

/-- C5 (counterexample to the claim as stated): with deadline `121` and an
always-denying endpoint, the infrastructure-stack variant sleeps the
30-second floor at `now = 0` even though `now + delay + safetyMargin = 150`
exceeds the deadline `121` — the clamp `max(30, remaining - 120)` does not
guarantee `now + delay + safetyMargin ≤ deadline` when the remaining budget is
between 120s and 150s. -/
theorem deadline_clamp_counterexample :
    sleepsOf (infraCreate denyAllEp 121 ()) =
      [⟨0, SleepKind.denied, 0, 60, 30⟩] ∧
    ¬ ((0 : Nat) + 30 + safetyMargin ≤ 121) := by
  exact ⟨by decide, by decide⟩

/-- C5 (amended): before every retry sleep, both variants check that at least
`safetyMargin = 120` seconds of budget remain (aborting with Failed before the
sleep otherwise), and the slept delay never extends past `deadline - 90`; when
at least 150 seconds remain, the clamped delay additionally respects the full
safety margin (`now + slept + 120 ≤ deadline`).  Only in the window where the
remaining budget is between 120s and 150s does the 30-second minimum delay
intrude into the safety margin — never past the deadline.  Scenario: with
deadline 90s the application-stack variant aborts immediately with a raised
deadline error and performs no sleep at all. -/
theorem deadline_clamp_amended :
    (∀ (σ : Type) (E : Endpoint σ) (D : Nat) (ep : σ) (ev : SleepEvent),
        ev ∈ sleepsOf (infraCreate E D ep) ∨ ev ∈ sleepsOf (appCreate E D ep) →
        safetyMargin ≤ D - ev.now ∧ ev.now + ev.slept + 90 ≤ D ∧
          (150 ≤ D - ev.now → ev.now + ev.slept + safetyMargin ≤ D)) ∧
    (appCreate denyAllEp 90 ()).outcome = CreateOutcome.raised FailReason.deadlineAbort ∧
    sleepsOf (appCreate denyAllEp 90 ()) = [] := by
  refine ⟨?_, by decide, by decide⟩
  rintro σ E D ep ev (hmem | hmem)
  · obtain ⟨a, ha, hsleep⟩ := List.mem_filterMap.mp hmem
    have hrec := (infraLoop_master E D infraMaxRetries ⟨ep, 0, []⟩).2.2.2.2 (by simp) a ha
    exact recOk_sleep_bounds hrec hsleep
  · obtain ⟨a, ha, hsleep⟩ := List.mem_filterMap.mp hmem
    have hrec := (appLoop_master E D appMaxRetries ⟨ep, 0, []⟩).2.2.2.2 (by simp) a ha
    exact recOk_sleep_bounds hrec hsleep

theorem deadline_clamp_amended_witness :
    ((⟨0, SleepKind.denied, 0, 60, 60⟩ : SleepEvent) ∈ sleepsOf (infraCreate denyAllEp 780 ()) ∨
      (⟨0, SleepKind.denied, 0, 60, 60⟩ : SleepEvent) ∈ sleepsOf (appCreate denyAllEp 780 ())) ∧
    (safetyMargin ≤ 780 - (0 : Nat) ∧ (0 : Nat) + 60 + 90 ≤ 780 ∧
      (150 ≤ 780 - (0 : Nat) → (0 : Nat) + 60 + safetyMargin ≤ 780)) :=
  ⟨Or.inl (by decide),
    deadline_clamp_amended.1 Unit denyAllEp 780 () ⟨0, SleepKind.denied, 0, 60, 60⟩
      (Or.inl (by decide))⟩

/-- C7: in every run of either variant, every sleep taken in a 403
("TransientDenied") branch has its backoff delay computed as a fixed base plus
a fixed per-attempt increment (`60 + 30·k` for the infrastructure-stack
variant, `90 + 45·k` for the application-stack variant, `k` the 0-based
attempt index); the bases lie in 60–90s, the increments in 30–45s, and the
attempt caps in 5–6.  (`requested` is the delay computed by the backoff
formula; C5 covers how the deadline clamp may shorten the actually-slept
delay.) -/
theorem linear_backoff_policy :
    (∀ (σ : Type) (E : Endpoint σ) (D : Nat) (ep : σ) (ev : SleepEvent),
        ev ∈ sleepsOf (infraCreate E D ep) → ev.kind = SleepKind.denied →
        ev.requested = infraBaseDelay + ev.attempt * infraDeniedStep) ∧
    (∀ (σ : Type) (E : Endpoint σ) (D : Nat) (ep : σ) (ev : SleepEvent),
        ev ∈ sleepsOf (appCreate E D ep) → ev.kind = SleepKind.denied →
        ev.requested = appBaseDelay + ev.attempt * appDeniedStep) ∧
    60 ≤ infraBaseDelay ∧ infraBaseDelay ≤ 90 ∧
    30 ≤ infraDeniedStep ∧ infraDeniedStep ≤ 45 ∧
    60 ≤ appBaseDelay ∧ appBaseDelay ≤ 90 ∧
    30 ≤ appDeniedStep ∧ appDeniedStep ≤ 45 ∧
    5 ≤ infraMaxRetries ∧ infraMaxRetries ≤ 6 ∧
    5 ≤ appMaxRetries ∧ appMaxRetries ≤ 6 := by
  refine ⟨?_, ?_, by decide, by decide, by decide, by decide, by decide, by decide,
    by decide, by decide, by decide, by decide, by decide, by decide⟩
  · intro σ E D ep ev hmem hkind
    obtain ⟨a, ha, hsleep⟩ := List.mem_filterMap.mp hmem
    have hrec := (infraLoop_master E D infraMaxRetries ⟨ep, 0, []⟩).2.2.2.2 (by simp) a ha
    obtain ⟨-, -, -, hs⟩ := hrec
    obtain ⟨-, -, hdisj⟩ := hs ev hsleep
    rcases hdisj with ⟨-, hr, -⟩ | ⟨hk, -, -⟩
    · exact hr
    · rw [hkind] at hk
      cases hk
  · intro σ E D ep ev hmem hkind
    obtain ⟨a, ha, hsleep⟩ := List.mem_filterMap.mp hmem
    have hrec := (appLoop_master E D appMaxRetries ⟨ep, 0, []⟩).2.2.2.2 (by simp) a ha
    obtain ⟨-, -, -, hs⟩ := hrec
    obtain ⟨-, -, hdisj⟩ := hs ev hsleep
    rcases hdisj with ⟨-, hr, -⟩ | ⟨hk, -, -⟩
    · exact hr
    · rw [hkind] at hk
      cases hk

theorem linear_backoff_policy_witness :
    (⟨0, SleepKind.denied, 0, 60, 60⟩ : SleepEvent) ∈ sleepsOf (infraCreate denyAllEp 780 ()) ∧
    SleepKind.denied = SleepKind.denied ∧
    (60 : Nat) = infraBaseDelay + 0 * infraDeniedStep :=
  ⟨by decide, rfl,
    linear_backoff_policy.1 Unit denyAllEp 780 () ⟨0, SleepKind.denied, 0, 60, 60⟩
      (by decide) rfl⟩

theorem infraLoop_succ {σ : Type} (E : Endpoint σ) (D f : Nat) (s : St σ) :
    infraLoop E D (f + 1) s =
      match infraStep E D (infraMaxRetries - (f + 1)) s.ep s.elapsed with
      | .finished out recs ep used => ⟨out, s.log ++ recs, s.elapsed, used, ep⟩
      | .retry rec ep slept => infraLoop E D f ⟨ep, s.elapsed + slept, s.log ++ [rec]⟩ := rfl

theorem infraStep_failPut {st : Nat} (D k : Nat) (u : Unit) (e : Nat) (h200 : st ≠ 200)
    (h201 : st ≠ 201) (h403 : st ≠ 403) :
    infraStep (infraFailPutEp st) D k u e =
      if D - e < safetyMargin then .finished (.raised .deadlineAbort) [] u k
      else .finished (.raised .permanentError)
        [⟨k, [⟨k, .head, .index, some 404⟩, ⟨k, .put, .index, some st⟩], none⟩] u
          (k + 1) := by
  by_cases hg : D - e < safetyMargin
  · simp [infraStep, infraFailPutEp, hg]
  · simp [infraStep, infraFailPutEp, hg, h200, h201, h403]

/-- C4 (counterexample to the claim as stated): the application-stack variant
does not stop after one creation attempt on a non-auth error: its
`except Exception` handler catches the `ValueError` raised for the HTTP 500
creation response and retries, so against an endpoint whose PUT always
answers 500 it performs 5 creation attempts, not 1, before raising. -/
theorem no_retry_on_permanent_counterexample :
    ((callsOf (appCreate (appFailPutEp 500) 780 ())).filter isPutCall).length = 5 ∧
    ((callsOf (appCreate (appFailPutEp 500) 780 ())).filter isPutCall).length ≠ 1 ∧
    outcomeRaises (appCreate (appFailPutEp 500) 780 ()).outcome = true := by
  decide

/-- C4 (amended): on a non-auth creation error (any PUT status other than
200/201/403), the infrastructure-stack variant raises immediately — its
`except ValueError: raise` clause skips the generic retry handler — returning
Failed after exactly one creation attempt and one loop iteration; the
application-stack variant lacks that clause, so its generic exception handler
retries the creation with the shorter backoff, performing 5 creation attempts
(its full retry budget) before failing. -/
theorem no_retry_on_permanent_amended (D st : Nat) (hD : safetyMargin ≤ D)
    (h200 : st ≠ 200) (h201 : st ≠ 201) (h403 : st ≠ 403) :
    (infraCreate (infraFailPutEp st) D ()).outcome
        = CreateOutcome.raised FailReason.permanentError ∧
    ((callsOf (infraCreate (infraFailPutEp st) D ())).filter isPutCall).length = 1 ∧
    (infraCreate (infraFailPutEp st) D ()).attemptsUsed = 1 ∧
    ((callsOf (appCreate (appFailPutEp 500) 780 ())).filter isPutCall).length = 5 := by
  have hsm : safetyMargin = 120 := rfl
  have hg : ¬ (D - 0 < safetyMargin) := by omega
  have hstep := infraStep_failPut D 0 () 0 h200 h201 h403
  rw [if_neg hg] at hstep
  refine ⟨?_, ?_, ?_, by decide⟩
  all_goals
    unfold infraCreate
    rw [show (infraMaxRetries : Nat) = 5 + 1 from rfl, infraLoop_succ]
    dsimp only
    rw [show (infraMaxRetries : Nat) - (5 + 1) = 0 from rfl, hstep]
    try rfl

theorem no_retry_on_permanent_amended_witness :
    safetyMargin ≤ 780 ∧ (500 : Nat) ≠ 200 ∧ (500 : Nat) ≠ 201 ∧ (500 : Nat) ≠ 403 ∧
    ((infraCreate (infraFailPutEp 500) 780 ()).outcome
        = CreateOutcome.raised FailReason.permanentError ∧
      ((callsOf (infraCreate (infraFailPutEp 500) 780 ())).filter isPutCall).length = 1 ∧
      (infraCreate (infraFailPutEp 500) 780 ()).attemptsUsed = 1 ∧
      ((callsOf (appCreate (appFailPutEp 500) 780 ())).filter isPutCall).length = 5) :=
  ⟨by decide, by decide, by decide, by decide,
    no_retry_on_permanent_amended 780 500 (by decide) (by decide) (by decide) (by decide)⟩

/-- Windowed analytics input of `calculate_health_score` (the monitoring
Lambda's aggregation): 24-hour query count, error count, average query
duration in seconds, and failed-ingestion count.  Counts are naturals;
the duration is modelled as a rational (the Python code uses floats, but the
claim's bounds are exact under any rounding because the deductions are capped
by `min`). -/
structure Analytics where
  totalQueries : Nat
  totalErrors : Nat
  averageDuration : ℚ
  failedIngestions : Nat

/-- Python's `int()` truncation toward zero, on rationals. -/
def pyInt (q : ℚ) : ℤ := if q < 0 then ⌈q⌉ else ⌊q⌋

/-- Error-rate deduction: `min(error_rate * 2, 30)` where
`error_rate = total_errors / total_queries * 100`, applied only when
`total_queries > 0`. -/
def errorDeduction (a : Analytics) : ℚ :=
  if 0 < a.totalQueries then
    min ((a.totalErrors : ℚ) / (a.totalQueries : ℚ) * 100 * 2) 30
  else 0

/-- Slow-performance deduction: `min((avg_duration - 3) * 5, 20)` when the
average duration exceeds the 3-second threshold. -/
def slowDeduction (a : Analytics) : ℚ :=
  if 3 < a.averageDuration then min ((a.averageDuration - 3) * 5) 20 else 0

/-- Ingestion-failure deduction: `min(failed_ingestions * 5, 20)`. -/
def ingestionDeduction (a : Analytics) : ℚ :=
  min ((a.failedIngestions : ℚ) * 5) 20

/-- The function calculate_health_score: start from 100, subtract the three
deductions, truncate to an integer and clamp below at 0 (`max(int(score), 0)`). -/
def calculate_health_score (a : Analytics) : ℤ :=
  max (pyInt (100 - errorDeduction a - slowDeduction a - ingestionDeduction a)) 0

/-- C10: for every analytics input with non-negative counts (naturals) and a
non-negative average duration, `calculate_health_score` returns an integer
between 0 and 100 inclusive, with the error-rate deduction capped at 30
points, the slow-performance deduction capped at 20 points, and the
ingestion-failure deduction capped at 20 points. -/
theorem health_score_bounds (a : Analytics) (hdur : 0 ≤ a.averageDuration) :
    0 ≤ calculate_health_score a ∧ calculate_health_score a ≤ 100 ∧
    0 ≤ errorDeduction a ∧ errorDeduction a ≤ 30 ∧
    0 ≤ slowDeduction a ∧ slowDeduction a ≤ 20 ∧
    0 ≤ ingestionDeduction a ∧ ingestionDeduction a ≤ 20 := by
  have h1a : 0 ≤ errorDeduction a := by
    unfold errorDeduction
    split
    · exact le_min (by positivity) (by norm_num)
    · exact le_refl 0
  have h1b : errorDeduction a ≤ 30 := by
    unfold errorDeduction
    split
    · exact min_le_right _ _
    · norm_num
  have h2a : 0 ≤ slowDeduction a := by
    unfold slowDeduction
    split
    · rename_i h3
      refine le_min ?_ (by norm_num)
      nlinarith
    · exact le_refl 0
  have h2b : slowDeduction a ≤ 20 := by
    unfold slowDeduction
    split
    · exact min_le_right _ _
    · norm_num
  have h3a : 0 ≤ ingestionDeduction a := le_min (by positivity) (by norm_num)
  have h3b : ingestionDeduction a ≤ 20 := min_le_right _ _
  have hs100 : 100 - errorDeduction a - slowDeduction a - ingestionDeduction a ≤ (100 : ℚ) := by
    linarith
  have hps : pyInt (100 - errorDeduction a - slowDeduction a - ingestionDeduction a)
      = ⌊100 - errorDeduction a - slowDeduction a - ingestionDeduction a⌋ := by
    unfold pyInt
    exact if_neg (not_lt.mpr (by linarith))
  refine ⟨le_max_right _ _, ?_, h1a, h1b, h2a, h2b, h3a, h3b⟩
  show max (pyInt (100 - errorDeduction a - slowDeduction a - ingestionDeduction a)) 0 ≤ 100
  refine max_le ?_ (by norm_num)
  rw [hps]
  calc ⌊100 - errorDeduction a - slowDeduction a - ingestionDeduction a⌋
      ≤ ⌊(100 : ℚ)⌋ := Int.floor_le_floor hs100
    _ = 100 := by norm_num

theorem health_score_bounds_witness :
    (0 : ℚ) ≤ (⟨10, 1, 2, 0⟩ : Analytics).averageDuration ∧
    (0 ≤ calculate_health_score ⟨10, 1, 2, 0⟩ ∧
      calculate_health_score ⟨10, 1, 2, 0⟩ ≤ 100 ∧
      0 ≤ errorDeduction ⟨10, 1, 2, 0⟩ ∧ errorDeduction ⟨10, 1, 2, 0⟩ ≤ 30 ∧
      0 ≤ slowDeduction ⟨10, 1, 2, 0⟩ ∧ slowDeduction ⟨10, 1, 2, 0⟩ ≤ 20 ∧
      0 ≤ ingestionDeduction ⟨10, 1, 2, 0⟩ ∧ ingestionDeduction ⟨10, 1, 2, 0⟩ ≤ 20) :=
  ⟨by norm_num, health_score_bounds ⟨10, 1, 2, 0⟩ (by norm_num)⟩

end RagDemo
